import Mathlib

/-!
Shallow embedding of `snykwire` (src/snykwire.js): a guarded `require` that
temporarily replaces the global module cache (`Module._cache`) with a
policy-enforcing proxy, loads a module, and restores the cache reference in a
`finally` block.

Modelling choices:
* Exported module values are abstracted as natural numbers (`Value`).
* The module cache contents are an association list `Store` from resolved
  identifiers (strings) to values; JS property read/assign/`in`/`delete`
  become `Store.lookup` / `Store.insert` / `Store.containsKey` / `Store.erase`.
* `Module._cache` is a mutable reference that either points at the plain
  underlying object (`View.base`) or at a proxy wrapping the previously
  installed value (`View.proxy ... inner`); nested invocations stack proxies,
  exactly as `new Proxy(cache, ...)` wraps whatever `Module._cache` held.
* All proxy traps delegate mutations to the wrapped target, so there is a
  single `Store` per world; a `World` is the store plus the installed view.
* The host resolver `require.resolve` is an abstract `Resolver`
  (`String → Option String`, `none` = resolution failure).
* The behaviour of a module's own code during loading is a syntax tree `Act`
  of cache operations (direct reads/writes/presence tests/deletes of the
  installed cache, lock attempts via `Object.freeze`/`preventExtensions`,
  nested `require`, nested `snykwire` invocations, and throwing).
* `require(name)` is modelled after Node's documented flow (also restated in
  the repository's accompanying write-up): resolve the name, fetch the
  resolved key from the installed cache (a `get`, performed unconditionally),
  return the cached value on a hit, otherwise run the module body, publish the
  resulting record into the installed cache (a `set`) and return its exports.
* Locking the plain base object is modelled as a successful no-op: no claim
  concerns freezing the unguarded cache, and the guarded view never delegates
  lock attempts.
* Every throw site in the source gets its own `Err` constructor carrying the
  data interpolated into the corresponding JS error message.
-/

deriving instance DecidableEq for Except

namespace Snykwire

/-- A loaded module's exported value, abstracted. -/
abbrev Value := Nat

/-- Contents of the process-wide module cache: resolved identifier to module record. -/
abbrev Store := List (String × Value)

/-- Property read on the plain cache object (`target[resolvedName]`). -/
def Store.lookup : Store → String → Option Value
  | [], _ => none
  | (k, v) :: rest, key => if k = key then some v else Store.lookup rest key

/-- Remove every binding of a key (`delete target[resolvedName]`). -/
def Store.erase : Store → String → Store
  | [], _ => []
  | (k, v) :: rest, key =>
    if k = key then Store.erase rest key else (k, v) :: Store.erase rest key

/-- Property assignment on the plain cache object (`target[resolvedName] = mod`). -/
def Store.insert (s : Store) (key : String) (v : Value) : Store :=
  (key, v) :: Store.erase s key

/-- Presence test on the plain cache object (`resolvedName in target`). -/
def Store.containsKey (s : Store) (key : String) : Bool :=
  (Store.lookup s key).isSome

/-- The host resolver `require.resolve`; `none` models a resolution failure. -/
abbrev Resolver := String → Option String

/-- Error taxonomy; one constructor per throw site of the source, carrying the
data the JS message interpolates. -/
inductive Err where
  | configError (msg : String)
  | resolutionError (name : String)
  | accessViolation (moduleName resolvedName : String)
  | lockError (moduleName : String)
  | moduleError (msg : String)
deriving DecidableEq

/-- The spec classifies both the `ensure` throw and the `preventExtensions`
throw as access violations raised by the interception layer. -/
def Err.isAccessViolation : Err → Bool
  | .accessViolation _ _ => true
  | .lockError _ => true
  | _ => false

/-- Whether an error is a configuration error. -/
def Err.isConfigError : Err → Bool
  | .configError _ => true
  | _ => false

/-- Message of the throw at line 22 of src/snykwire.js. -/
def msgBothLists : String := "You cannot snykwire with both a blacklist and a whitelist"

/-- Message of the throw at line 26 of src/snykwire.js. -/
def msgBareList : String := "You cannot use bare snykwire with either a blacklist or a whitelist"

/-- `isBlacklisted` from src/snykwire.js line 3: `blacklist.size && blacklist.has(resolvedName)`. -/
def isBlacklisted (blacklist : List String) (resolvedName : String) : Bool :=
  !blacklist.isEmpty && blacklist.contains resolvedName

/-- `isWhitelisted` from src/snykwire.js line 5: `whitelist.size && !whitelist.has(resolvedName)`. -/
def isWhitelisted (whitelist : List String) (resolvedName : String) : Bool :=
  !whitelist.isEmpty && !whitelist.contains resolvedName

/-- `isForbidden` from src/snykwire.js line 7. `require.resolve(moduleName)` is
re-evaluated at each call, and only when `bare` is set (JS `&&` shortcircuit);
its failure surfaces as a resolution error. -/
def isForbidden (resolve : Resolver) (blacklist whitelist : List String) (bare : Bool)
    (moduleName resolvedName : String) : Except Err Bool :=
  if bare then
    match resolve moduleName with
    | none => .error (.resolutionError moduleName)
    | some r =>
      .ok (r != resolvedName || isBlacklisted blacklist resolvedName ||
           isWhitelisted whitelist resolvedName)
  else
    .ok (isBlacklisted blacklist resolvedName || isWhitelisted whitelist resolvedName)

/-- `getEnsurer` from src/snykwire.js line 12: throws an access violation naming
the requesting module and the violating key when the policy forbids the key. -/
def getEnsurer (resolve : Resolver) (blacklist whitelist : List String) (bare : Bool)
    (moduleName : String) : String → Except Err Unit := fun resolvedName =>
  match isForbidden resolve blacklist whitelist bare moduleName resolvedName with
  | .error e => .error e
  | .ok true => .error (.accessViolation moduleName resolvedName)
  | .ok false => .ok ()

/-- What `Module._cache` can point at: the plain underlying object, or a proxy
(one per live `guardedRequire` invocation) wrapping the previously installed
value. The proxy carries the resolved blacklist, resolved whitelist, the bare
flag and the guarded module's name. -/
inductive View where
  | base
  | proxy (blacklist whitelist : List String) (bare : Bool) (moduleName : String) (inner : View)
deriving DecidableEq

/-- The `get` trap (src/snykwire.js line 36): ensure, then delegate the read to
the wrapped target. -/
def View.getOp (resolve : Resolver) : View → Store → String → Except Err (Option Value)
  | .base, s, k => .ok (Store.lookup s k)
  | .proxy bl wl bare mn inner, s, k =>
    match getEnsurer resolve bl wl bare mn k with
    | .error e => .error e
    | .ok _ => View.getOp resolve inner s k

/-- The `set` trap (src/snykwire.js line 41): ensure, delegate the assignment
to the wrapped target, report success. -/
def View.setOp (resolve : Resolver) : View → Store → String → Value → Except Err Store
  | .base, s, k, v => .ok (Store.insert s k v)
  | .proxy bl wl bare mn inner, s, k, v =>
    match getEnsurer resolve bl wl bare mn k with
    | .error e => .error e
    | .ok _ => View.setOp resolve inner s k v

/-- The `has` trap (src/snykwire.js line 47): ensure, then delegate the
presence test to the wrapped target. -/
def View.hasOp (resolve : Resolver) : View → Store → String → Except Err Bool
  | .base, s, k => .ok (Store.containsKey s k)
  | .proxy bl wl bare mn inner, s, k =>
    match getEnsurer resolve bl wl bare mn k with
    | .error e => .error e
    | .ok _ => View.hasOp resolve inner s k

/-- The `deleteProperty` trap (src/snykwire.js line 52): ensure, delegate the
deletion, report success. -/
def View.delOp (resolve : Resolver) : View → Store → String → Except Err Store
  | .base, s, k => .ok (Store.erase s k)
  | .proxy bl wl bare mn inner, s, k =>
    match getEnsurer resolve bl wl bare mn k with
    | .error e => .error e
    | .ok _ => View.delOp resolve inner s k

/-- The `preventExtensions` trap (src/snykwire.js line 58): a proxy throws
unconditionally, never delegating; locking the plain object is a no-op here. -/
def View.lockOp : View → Except Err Unit
  | .base => .ok ()
  | .proxy _ _ _ mn _ => .error (.lockError mn)

/-- Process-wide state: the contents of the one underlying cache object, and
what the `Module._cache` reference currently points at. -/
structure World where
  store : Store
  installed : View
deriving DecidableEq

/-- The configuration object of the exported function
(`{ blacklist=[], whitelist=[], bare=false }={}`). -/
structure Options where
  blacklist : List String := []
  whitelist : List String := []
  bare : Bool := false
deriving DecidableEq

/-- `list.map(require.resolve)` wrapped in `new Set`: resolves each entry in
order, propagating the first resolution failure. -/
def resolveList (resolve : Resolver) : List String → Except Err (List String)
  | [] => .ok []
  | n :: rest =>
    match resolve n with
    | none => .error (.resolutionError n)
    | some r =>
      match resolveList resolve rest with
      | .error e => .error e
      | .ok rs => .ok (r :: rs)

/-- What a module's own code does while being loaded: a tree of operations
against the currently installed cache, nested loads, and throws.

`req name body exports` is a plain nested `require`; `body`/`exports` describe
the required module's source (run only on a cache miss). `wire` is a nested
invocation of the exported guarded-require function. -/
inductive Act where
  | skip
  | seq (a b : Act)
  | get (key : String)
  | set (key : String) (v : Value)
  | has (key : String)
  | del (key : String)
  | lock
  | fail (msg : String)
  | req (name : String) (body : Act) (exports : Value)
  | wire (name : String) (opts : Options) (body : Act) (exports : Value)
deriving DecidableEq

/-- Interpreter for module-body behaviour. The `req` branch follows the host
loader flow (resolve, unconditional cache read, on miss run the body, publish,
return); the `wire` branch inlines the exported function of src/snykwire.js:
validate the option combination, resolve both lists, capture the installed
cache, install a fresh proxy over it, run the host loader, and restore the
captured reference in `finally`. -/
def runAct (resolve : Resolver) : Act → World → Except Err Unit × World
  | .skip, w => (.ok (), w)
  | .seq a b, w =>
    match runAct resolve a w with
    | (.error e, w1) => (.error e, w1)
    | (.ok _, w1) => runAct resolve b w1
  | .get k, w =>
    match View.getOp resolve w.installed w.store k with
    | .error e => (.error e, w)
    | .ok _ => (.ok (), w)
  | .set k v, w =>
    match View.setOp resolve w.installed w.store k v with
    | .error e => (.error e, w)
    | .ok s => (.ok (), ⟨s, w.installed⟩)
  | .has k, w =>
    match View.hasOp resolve w.installed w.store k with
    | .error e => (.error e, w)
    | .ok _ => (.ok (), w)
  | .del k, w =>
    match View.delOp resolve w.installed w.store k with
    | .error e => (.error e, w)
    | .ok s => (.ok (), ⟨s, w.installed⟩)
  | .lock, w =>
    match View.lockOp w.installed with
    | .error e => (.error e, w)
    | .ok _ => (.ok (), w)
  | .fail msg, w => (.error (.moduleError msg), w)
  | .req n body exports, w =>
    let p : Except Err Value × World :=
      match resolve n with
      | none => (.error (.resolutionError n), w)
      | some rn =>
        match View.getOp resolve w.installed w.store rn with
        | .error e => (.error e, w)
        | .ok (some v) => (.ok v, w)
        | .ok none =>
          match runAct resolve body w with
          | (.error e, w1) => (.error e, w1)
          | (.ok _, w1) =>
            match View.setOp resolve w1.installed w1.store rn exports with
            | .error e => (.error e, w1)
            | .ok s => (.ok exports, ⟨s, w1.installed⟩)
    (p.1.map fun _ => (), p.2)
  | .wire n opts body exports, w =>
    if !opts.blacklist.isEmpty && !opts.whitelist.isEmpty then
      (.error (.configError msgBothLists), w)
    else if opts.bare && (!opts.blacklist.isEmpty || !opts.whitelist.isEmpty) then
      (.error (.configError msgBareList), w)
    else
      match resolveList resolve opts.blacklist with
      | .error e => (.error e, w)
      | .ok blackSet =>
        match resolveList resolve opts.whitelist with
        | .error e => (.error e, w)
        | .ok whiteSet =>
          let cache := w.installed
          let w1 : World := ⟨w.store, .proxy blackSet whiteSet opts.bare n cache⟩
          let p : Except Err Value × World :=
            match resolve n with
            | none => (.error (.resolutionError n), w1)
            | some rn =>
              match View.getOp resolve w1.installed w1.store rn with
              | .error e => (.error e, w1)
              | .ok (some v) => (.ok v, w1)
              | .ok none =>
                match runAct resolve body w1 with
                | (.error e, w2) => (.error e, w2)
                | (.ok _, w2) =>
                  match View.setOp resolve w2.installed w2.store rn exports with
                  | .error e => (.error e, w2)
                  | .ok s => (.ok exports, ⟨s, w2.installed⟩)
          (p.1.map fun _ => (), ⟨p.2.store, cache⟩)

/-- The host loader `require(name)` run against the current world: resolve,
read the resolved key from the installed cache, return a hit, otherwise run
the module body, publish the record, return its exports. -/
def hostRequire (resolve : Resolver) (name : String) (body : Act) (exports : Value)
    (w : World) : Except Err Value × World :=
  match resolve name with
  | none => (.error (.resolutionError name), w)
  | some rn =>
    match View.getOp resolve w.installed w.store rn with
    | .error e => (.error e, w)
    | .ok (some v) => (.ok v, w)
    | .ok none =>
      match runAct resolve body w with
      | (.error e, w1) => (.error e, w1)
      | (.ok _, w1) =>
        match View.setOp resolve w1.installed w1.store rn exports with
        | .error e => (.error e, w1)
        | .ok s => (.ok exports, ⟨s, w1.installed⟩)

/-- The exported function of src/snykwire.js (line 20): validate the option
combination, resolve both lists, capture `Module._cache`, install a proxy over
it, `require(moduleName)`, and restore the captured reference in `finally`.
`body`/`exports` describe the requested module's source. -/
def guardedRequire (resolve : Resolver) (moduleName : String) (opts : Options) (body : Act)
    (exports : Value) (w : World) : Except Err Value × World :=
  if !opts.blacklist.isEmpty && !opts.whitelist.isEmpty then
    (.error (.configError msgBothLists), w)
  else if opts.bare && (!opts.blacklist.isEmpty || !opts.whitelist.isEmpty) then
    (.error (.configError msgBareList), w)
  else
    match resolveList resolve opts.blacklist with
    | .error e => (.error e, w)
    | .ok blackSet =>
      match resolveList resolve opts.whitelist with
      | .error e => (.error e, w)
      | .ok whiteSet =>
        let cache := w.installed
        let w1 : World := ⟨w.store, .proxy blackSet whiteSet opts.bare moduleName cache⟩
        let p := hostRequire resolve moduleName body exports w1
        (p.1, ⟨p.2.store, cache⟩)

/-- The trivial resolver used for concrete runs: every name resolves to itself. -/
def resolve0 : Resolver := fun n => some n

/-- An empty world: empty cache, plain cache object installed. -/
def w0 : World := ⟨[], .base⟩

/-- Running any module body leaves the `Module._cache` reference as it found
it: raw operations never reassign it, and each nested guarded invocation
restores in `finally` exactly the reference it captured. -/
theorem runAct_installed (resolve : Resolver) (a : Act) (w : World) :
    ((runAct resolve a w).2).installed = w.installed := by
  induction a generalizing w with
  | skip => rfl
  | fail msg => rfl
  | get k => simp only [runAct]; split <;> rfl
  | set k v => simp only [runAct]; split <;> rfl
  | has k => simp only [runAct]; split <;> rfl
  | del k => simp only [runAct]; split <;> rfl
  | lock => simp only [runAct]; split <;> rfl
  | seq a b iha ihb =>
    simp only [runAct]
    split
    · next e w1 heq =>
      have h1 := iha w
      rw [heq] at h1
      exact h1
    · next u w1 heq =>
      have h1 := iha w
      rw [heq] at h1
      rw [ihb w1, h1]
  | req n body exports ih =>
    simp only [runAct]
    split
    · rfl
    · split
      · rfl
      · rfl
      · split
        · next e w1 heq =>
          have h1 := ih w
          rw [heq] at h1
          exact h1
        · next u w1 heq =>
          have h1 := ih w
          rw [heq] at h1
          split
          · exact h1
          · exact h1
  | wire n opts body exports ih =>
    simp only [runAct]
    split
    · rfl
    · split
      · rfl
      · split
        · rfl
        · split
          · rfl
          · rfl

/-- The host loader never reassigns the cache reference either. -/
theorem hostRequire_installed (resolve : Resolver) (name : String) (body : Act)
    (exports : Value) (w : World) :
    ((hostRequire resolve name body exports w).2).installed = w.installed := by
  simp only [hostRequire]
  split
  · rfl
  · split
    · rfl
    · rfl
    · split
      · next e w1 heq =>
        have h1 := runAct_installed resolve body w
        rw [heq] at h1
        exact h1
      · next u w1 heq =>
        have h1 := runAct_installed resolve body w
        rw [heq] at h1
        split
        · exact h1
        · exact h1

/-- The exported function always restores the captured cache reference. -/
theorem guardedRequire_installed (resolve : Resolver) (moduleName : String)
    (opts : Options) (body : Act) (exports : Value) (w : World) :
    ((guardedRequire resolve moduleName opts body exports w).2).installed = w.installed := by
  simp only [guardedRequire]
  split
  · rfl
  · split
    · rfl
    · split
      · rfl
      · split
        · rfl
        · rfl

/-- Claim C1: every invocation of the exported guarded-require function —
whether it returns normally, fails validation, fails resolution, raises an
access violation, or propagates an error thrown by the loaded module — leaves
the process-wide `Module._cache` reference exactly as it was immediately
before the invocation installed its guarded view; and since every nested
operation (in particular each re-entrant guarded invocation occurring inside a
module body) also preserves the installed reference, nested invocations
restore in last-in-first-out order. -/
theorem guardedRequire_restores_cache_reference :
    (∀ (resolve : Resolver) (moduleName : String) (opts : Options) (body : Act)
       (exports : Value) (w : World),
       ((guardedRequire resolve moduleName opts body exports w).2).installed = w.installed) ∧
    (∀ (resolve : Resolver) (a : Act) (w : World),
       ((runAct resolve a w).2).installed = w.installed) :=
  ⟨fun resolve mn opts body exports w =>
    guardedRequire_installed resolve mn opts body exports w,
   fun resolve a w => runAct_installed resolve a w⟩

/-- Modelled from the spec (§4.1): the decision chain the spec prescribes for
a candidate resolved identifier, given `r`, the resolution of the requested
top-level module name: if solo, forbidden unless the identifier equals `r`;
else if the disallow set is non-empty, forbidden iff a member; else if the
allow set is non-empty, forbidden iff not a member; else never forbidden. -/
def specForbidden (r : String) (blackSet whiteSet : List String) (bare : Bool)
    (resolvedName : String) : Bool :=
  if bare then resolvedName != r
  else if !blackSet.isEmpty then blackSet.contains resolvedName
  else if !whiteSet.isEmpty then !whiteSet.contains resolvedName
  else false

/-- Claim C2: under the mutual-exclusivity invariant (at most one of the solo
flag, a non-empty disallow set, a non-empty allow set is active) and with the
requested module resolving to `r`, the code's `isForbidden` computes exactly
the decision chain of the spec. -/
theorem isForbidden_matches_spec (resolve : Resolver) (blackSet whiteSet : List String)
    (bare : Bool) (moduleName resolvedName r : String)
    (hres : resolve moduleName = some r)
    (hbare : bare = true → blackSet = [] ∧ whiteSet = [])
    (hmux : blackSet = [] ∨ whiteSet = []) :
    isForbidden resolve blackSet whiteSet bare moduleName resolvedName =
      .ok (specForbidden r blackSet whiteSet bare resolvedName) := by
  cases bare with
  | true =>
    obtain ⟨hb, hw⟩ := hbare rfl
    subst hb
    subst hw
    simp only [isForbidden, if_pos rfl, hres, specForbidden, isBlacklisted, isWhitelisted,
      List.isEmpty_nil, Bool.not_true, Bool.false_and, Bool.or_false]
    by_cases h : r = resolvedName
    · subst h
      rfl
    · have h2 : resolvedName ≠ r := Ne.symm h
      simp [bne, beq_iff_eq, h, h2]
  | false =>
    rcases hmux with hb | hw
    · subst hb
      cases whiteSet with
      | nil => simp [isForbidden, specForbidden, isBlacklisted, isWhitelisted]
      | cons x xs => simp [isForbidden, specForbidden, isBlacklisted, isWhitelisted]
    · subst hw
      cases blackSet with
      | nil => simp [isForbidden, specForbidden, isBlacklisted, isWhitelisted]
      | cons x xs => simp [isForbidden, specForbidden, isBlacklisted, isWhitelisted]

/-- Witness for claim C2 at a concrete disallow-list configuration. -/
theorem isForbidden_matches_spec_witness :
    isForbidden resolve0 ["fs"] [] false "m" "fs" =
      .ok (specForbidden "m" ["fs"] [] false "fs") :=
  isForbidden_matches_spec resolve0 ["fs"] [] false "m" "fs" "m" rfl
    (fun h => by cases h) (Or.inr rfl)

/-- Claim C3: on the guarded view over the original cache, each of read, write
and delete fails with the access violation naming the requesting module and
the violating key exactly when the policy forbids the key; on a permitted key
the operation delegates to the original cache: the read returns its entry, and
write and delete apply the mutation to it and report success. -/
theorem guarded_ops_follow_policy (resolve : Resolver) (blackSet whiteSet : List String)
    (bare : Bool) (mn k : String) (s : Store) (v : Value) (b : Bool)
    (hb : isForbidden resolve blackSet whiteSet bare mn k = .ok b) :
    (b = true →
      View.getOp resolve (.proxy blackSet whiteSet bare mn .base) s k =
        .error (.accessViolation mn k) ∧
      View.setOp resolve (.proxy blackSet whiteSet bare mn .base) s k v =
        .error (.accessViolation mn k) ∧
      View.delOp resolve (.proxy blackSet whiteSet bare mn .base) s k =
        .error (.accessViolation mn k)) ∧
    (b = false →
      View.getOp resolve (.proxy blackSet whiteSet bare mn .base) s k =
        .ok (Store.lookup s k) ∧
      View.setOp resolve (.proxy blackSet whiteSet bare mn .base) s k v =
        .ok (Store.insert s k v) ∧
      View.delOp resolve (.proxy blackSet whiteSet bare mn .base) s k =
        .ok (Store.erase s k)) := by
  constructor
  · intro hbt
    subst hbt
    simp [View.getOp, View.setOp, View.delOp, getEnsurer, hb]
  · intro hbf
    subst hbf
    simp [View.getOp, View.setOp, View.delOp, getEnsurer, hb]

/-- Witness for claim C3: a blacklisted key makes all three operations fail
with the violation naming the module and the key. -/
theorem guarded_ops_follow_policy_witness :
    View.getOp resolve0 (.proxy ["fs"] [] false "m" .base) [] "fs" =
      .error (.accessViolation "m" "fs") ∧
    View.setOp resolve0 (.proxy ["fs"] [] false "m" .base) [] "fs" 7 =
      .error (.accessViolation "m" "fs") ∧
    View.delOp resolve0 (.proxy ["fs"] [] false "m" .base) [] "fs" =
      .error (.accessViolation "m" "fs") :=
  (guarded_ops_follow_policy resolve0 ["fs"] [] false "m" "fs" [] 7 true (by decide)).1 rfl

/-- Claim C5: the existence check on the guarded view fails on a forbidden key
with exactly the access violation a read of that key raises, rather than
reporting false; on a permitted key it delegates, reporting the key's actual
presence in the original cache. -/
theorem guarded_has_follows_policy (resolve : Resolver) (blackSet whiteSet : List String)
    (bare : Bool) (mn k : String) (s : Store) (b : Bool)
    (hb : isForbidden resolve blackSet whiteSet bare mn k = .ok b) :
    (b = true →
      View.hasOp resolve (.proxy blackSet whiteSet bare mn .base) s k =
        .error (.accessViolation mn k) ∧
      View.getOp resolve (.proxy blackSet whiteSet bare mn .base) s k =
        .error (.accessViolation mn k)) ∧
    (b = false →
      View.hasOp resolve (.proxy blackSet whiteSet bare mn .base) s k =
        .ok (Store.containsKey s k)) := by
  constructor
  · intro hbt
    subst hbt
    simp [View.hasOp, View.getOp, getEnsurer, hb]
  · intro hbf
    subst hbf
    simp [View.hasOp, getEnsurer, hb]

/-- Witness for claim C5: testing presence of a blacklisted key fails exactly
as reading it does. -/
theorem guarded_has_follows_policy_witness :
    View.hasOp resolve0 (.proxy ["net"] [] false "m" .base) [("net", 3)] "net" =
      .error (.accessViolation "m" "net") ∧
    View.getOp resolve0 (.proxy ["net"] [] false "m" .base) [("net", 3)] "net" =
      .error (.accessViolation "m" "net") :=
  (guarded_has_follows_policy resolve0 ["net"] [] false "m" "net" [("net", 3)] true
    (by decide)).1 rfl

/-- Claim C6: for every policy configuration, including the unrestricted one,
a lock attempt (`preventExtensions`) on the guarded view fails with the
violation naming the guarded module — an error the spec's taxonomy classifies
as an access violation — and the trap has no allowed branch. -/
theorem guarded_lock_always_fails (blackSet whiteSet : List String) (bare : Bool)
    (mn : String) (inner : View) :
    View.lockOp (.proxy blackSet whiteSet bare mn inner) = .error (.lockError mn) ∧
    (Err.lockError mn).isAccessViolation = true :=
  ⟨rfl, rfl⟩

/-- A non-empty list is not `isEmpty`. -/
theorem isEmpty_false_of_ne_nil (l : List String) (h : l ≠ []) : l.isEmpty = false := by
  cases l with
  | nil => exact absurd rfl h
  | cons x xs => rfl

/-- Shared helper: an invalid option combination makes the exported function
return a configuration error with the input world untouched. -/
theorem invalid_combo_config_error (resolve : Resolver) (mn : String)
    (opts : Options) (body : Act) (exports : Value) (w : World)
    (h : (opts.blacklist ≠ [] ∧ opts.whitelist ≠ []) ∨
         (opts.bare = true ∧ (opts.blacklist ≠ [] ∨ opts.whitelist ≠ []))) :
    ∃ msg, guardedRequire resolve mn opts body exports w =
      (.error (.configError msg), w) := by
  by_cases hboth : (!opts.blacklist.isEmpty && !opts.whitelist.isEmpty) = true
  · refine ⟨msgBothLists, ?_⟩
    simp only [guardedRequire, hboth]
    rfl
  · have h2 : (opts.bare && (!opts.blacklist.isEmpty || !opts.whitelist.isEmpty)) = true := by
      rcases h with ⟨hb, hw⟩ | ⟨hbare, hor⟩
      · exact absurd (by simp [isEmpty_false_of_ne_nil _ hb, isEmpty_false_of_ne_nil _ hw])
          hboth
      · rcases hor with hb | hw
        · simp [hbare, isEmpty_false_of_ne_nil _ hb]
        · simp [hbare, isEmpty_false_of_ne_nil _ hw]
    have h1f : (!opts.blacklist.isEmpty && !opts.whitelist.isEmpty) = false := by
      cases hx : (!opts.blacklist.isEmpty && !opts.whitelist.isEmpty) with
      | false => rfl
      | true => exact absurd hx hboth
    refine ⟨msgBareList, ?_⟩
    simp only [guardedRequire, h1f, h2]
    rfl

/-- Claim C4: a configuration with both lists non-empty, or with the bare flag
set together with a non-empty list, makes the exported function fail with a
configuration error raised before any cache manipulation: the returned world
is exactly the input world, so the global cache is not mutated. -/
theorem config_error_leaves_cache_untouched (resolve : Resolver) (mn : String)
    (opts : Options) (body : Act) (exports : Value) (w : World)
    (h : (opts.blacklist ≠ [] ∧ opts.whitelist ≠ []) ∨
         (opts.bare = true ∧ (opts.blacklist ≠ [] ∨ opts.whitelist ≠ []))) :
    ∃ msg, guardedRequire resolve mn opts body exports w =
      (.error (.configError msg), w) :=
  invalid_combo_config_error resolve mn opts body exports w h

/-- Witness for claim C4: both lists non-empty. -/
theorem config_error_leaves_cache_untouched_witness :
    ∃ msg, guardedRequire resolve0 "m" { blacklist := ["a"], whitelist := ["b"] }
      .skip 9 w0 = (.error (.configError msg), w0) :=
  config_error_leaves_cache_untouched resolve0 "m"
    { blacklist := ["a"], whitelist := ["b"] } .skip 9 w0
    (Or.inl ⟨by decide, by decide⟩)

/-- A resolver that fails on the name `"nope"` and resolves everything else
to itself. -/
def resolveN : Resolver := fun n => if n = "nope" then none else some n

/-- Claim C9: when the option combination is invalid and some configured list
entry is unresolvable, the invocation raises the configuration error, never
the resolution error: option validation is performed before any list entry is
resolved. -/
theorem config_checked_before_list_resolution (resolve : Resolver) (mn : String)
    (opts : Options) (body : Act) (exports : Value) (w : World) (bad : String)
    (hcombo : (opts.blacklist ≠ [] ∧ opts.whitelist ≠ []) ∨
              (opts.bare = true ∧ (opts.blacklist ≠ [] ∨ opts.whitelist ≠ [])))
    (hbad : bad ∈ opts.blacklist ++ opts.whitelist)
    (hunres : resolve bad = none) :
    (∃ msg, guardedRequire resolve mn opts body exports w =
      (.error (.configError msg), w)) ∧
    ∀ n, (guardedRequire resolve mn opts body exports w).1 ≠
      .error (.resolutionError n) := by
  obtain ⟨msg, hmsg⟩ := invalid_combo_config_error resolve mn opts body exports w hcombo
  refine ⟨⟨msg, hmsg⟩, ?_⟩
  intro n hn
  rw [hmsg] at hn
  simp at hn

/-- Witness for claim C9: a bare invocation with a blacklist whose only entry
does not resolve still reports the configuration error. -/
theorem config_checked_before_list_resolution_witness :
    (∃ msg, guardedRequire resolveN "m" { blacklist := ["nope"], bare := true }
      .skip 9 w0 = (.error (.configError msg), w0)) ∧
    ∀ n, (guardedRequire resolveN "m" { blacklist := ["nope"], bare := true }
      .skip 9 w0).1 ≠ .error (.resolutionError n) :=
  config_checked_before_list_resolution resolveN "m"
    { blacklist := ["nope"], bare := true } .skip 9 w0 "nope"
    (Or.inr ⟨rfl, Or.inl (by decide)⟩) (by decide) (by decide)

/-- Erasing one key leaves lookups of other keys unchanged. -/
theorem Store.lookup_erase_ne (s : Store) (k k1 : String) (h : k1 ≠ k) :
    Store.lookup (Store.erase s k) k1 = Store.lookup s k1 := by
  induction s with
  | nil => rfl
  | cons p rest ih =>
    obtain ⟨a, b⟩ := p
    by_cases ha : a = k
    · subst ha
      have hne : a ≠ k1 := fun hc => h hc.symm
      simp [Store.erase, Store.lookup, hne, ih]
    · simp only [Store.erase, if_neg ha, Store.lookup]
      by_cases hk : a = k1
      · simp [hk]
      · simp [hk, ih]

/-- Looking up the key just inserted yields the inserted value. -/
theorem Store.lookup_insert_self (s : Store) (k : String) (v : Value) :
    Store.lookup (Store.insert s k v) k = some v := by
  simp [Store.insert, Store.lookup]

/-- Inserting one key leaves lookups of other keys unchanged. -/
theorem Store.lookup_insert_ne (s : Store) (k k1 : String) (v : Value) (h : k1 ≠ k) :
    Store.lookup (Store.insert s k v) k1 = Store.lookup s k1 := by
  have hne : k ≠ k1 := fun hc => h hc.symm
  simp [Store.insert, Store.lookup, hne, Store.lookup_erase_ne s k k1 h]

/-- At every layer, a write through a view either fails or is exactly the
assignment on the single underlying mapping: views hold no separate storage. -/
theorem View.setOp_delegates (resolve : Resolver) (view : View) (s : Store)
    (k : String) (v : Value) :
    (∃ e, View.setOp resolve view s k v = .error e) ∨
    View.setOp resolve view s k v = .ok (Store.insert s k v) := by
  induction view with
  | base => exact Or.inr rfl
  | proxy bl wl bare mn inner ih =>
    cases h : getEnsurer resolve bl wl bare mn k with
    | error e => exact Or.inl ⟨e, by simp [View.setOp, h]⟩
    | ok u => simpa [View.setOp, h] using ih

/-- At every layer, a delete through a view either fails or is exactly the
deletion on the single underlying mapping. -/
theorem View.delOp_delegates (resolve : Resolver) (view : View) (s : Store)
    (k : String) :
    (∃ e, View.delOp resolve view s k = .error e) ∨
    View.delOp resolve view s k = .ok (Store.erase s k) := by
  induction view with
  | base => exact Or.inr rfl
  | proxy bl wl bare mn inner ih =>
    cases h : getEnsurer resolve bl wl bare mn k with
    | error e => exact Or.inl ⟨e, by simp [View.delOp, h]⟩
    | ok u => simpa [View.delOp, h] using ih

/-- Counterexample to claim C7 as stated: an invocation of the exported
function that fails (the loaded module throws after a policy-permitted cache
write), yet the module cache contents after the invocation differ from the
contents before it — only the cache reference is restored, the permitted
write is not rolled back. -/
theorem failed_invocation_mutates_contents :
    (guardedRequire resolve0 "m" {} (.seq (.set "k" 5) (.fail "boom")) 9 w0).1 =
      .error (.moduleError "boom") ∧
    ((guardedRequire resolve0 "m" {} (.seq (.set "k" 5) (.fail "boom")) 9 w0).2).store ≠
      w0.store := by
  constructor
  · decide
  · decide

/-- Claim C7 (amended): when an invocation of the exported function fails, for
any reason, the installed cache reference is restored exactly to its
pre-invocation value; cache contents mutated by policy-permitted operations
before the failure persist (they are not rolled back). -/
theorem failed_invocation_restores_reference (resolve : Resolver) (mn : String)
    (opts : Options) (body : Act) (exports : Value) (w : World) (e : Err)
    (h : (guardedRequire resolve mn opts body exports w).1 = .error e) :
    ((guardedRequire resolve mn opts body exports w).2).installed = w.installed :=
  guardedRequire_installed resolve mn opts body exports w

/-- Witness for the amended claim C7 at a concrete failing invocation. -/
theorem failed_invocation_restores_reference_witness :
    ((guardedRequire resolve0 "m" {} (.seq (.set "k" 5) (.fail "boom")) 9 w0).2).installed =
      w0.installed :=
  failed_invocation_restores_reference resolve0 "m" {}
    (.seq (.set "k" 5) (.fail "boom")) 9 w0 (.moduleError "boom") (by decide)

/-- Claim C10: a policy-permitted write or delete through any guarded view is
applied to the single underlying cache mapping itself — every layer either
fails or performs exactly the base mutation, holding no separate storage —
and consequently, in a guarded load whose module body performs a permitted
write, both that write and the module record cached by the load itself are
still visible in the cache after the invocation restores the cache
reference. -/
theorem permitted_mutations_hit_underlying_cache (resolve : Resolver)
    (mn rn k : String) (opts : Options) (blackSet whiteSet : List String)
    (v exports : Value) (s : Store)
    (hg1 : (!opts.blacklist.isEmpty && !opts.whitelist.isEmpty) = false)
    (hg2 : (opts.bare && (!opts.blacklist.isEmpty || !opts.whitelist.isEmpty)) = false)
    (hrb : resolveList resolve opts.blacklist = .ok blackSet)
    (hrw : resolveList resolve opts.whitelist = .ok whiteSet)
    (hres : resolve mn = some rn)
    (hmiss : Store.lookup s rn = none)
    (hokm : getEnsurer resolve blackSet whiteSet opts.bare mn rn = .ok ())
    (hokk : getEnsurer resolve blackSet whiteSet opts.bare mn k = .ok ())
    (hne : rn ≠ k) :
    (∀ (view : View) (s1 : Store) (k1 : String) (v1 : Value),
       (∃ e, View.setOp resolve view s1 k1 v1 = .error e) ∨
       View.setOp resolve view s1 k1 v1 = .ok (Store.insert s1 k1 v1)) ∧
    (∀ (view : View) (s1 : Store) (k1 : String),
       (∃ e, View.delOp resolve view s1 k1 = .error e) ∨
       View.delOp resolve view s1 k1 = .ok (Store.erase s1 k1)) ∧
    guardedRequire resolve mn opts (.set k v) exports ⟨s, .base⟩ =
      (.ok exports, ⟨Store.insert (Store.insert s k v) rn exports, .base⟩) ∧
    Store.lookup ((guardedRequire resolve mn opts (.set k v) exports ⟨s, .base⟩).2).store
      k = some v := by
  have hrun : guardedRequire resolve mn opts (.set k v) exports ⟨s, .base⟩ =
      (.ok exports, ⟨Store.insert (Store.insert s k v) rn exports, .base⟩) := by
    simp [guardedRequire, hg1, hg2, hrb, hrw, hostRequire, hres, runAct,
      View.getOp, View.setOp, hokm, hokk, hmiss]
  refine ⟨fun view s1 k1 v1 => View.setOp_delegates resolve view s1 k1 v1,
    fun view s1 k1 => View.delOp_delegates resolve view s1 k1, hrun, ?_⟩
  rw [hrun]
  have h1 : Store.lookup (Store.insert (Store.insert s k v) rn exports) k =
      Store.lookup (Store.insert s k v) k :=
    Store.lookup_insert_ne (Store.insert s k v) rn k exports (fun hc => hne hc.symm)
  rw [h1, Store.lookup_insert_self]

/-- Witness for claim C10 at a concrete blacklist configuration: the permitted
write to key `"k"` and the cached record for the loaded module `"m"` both
survive the restoration. -/
theorem permitted_mutations_hit_underlying_cache_witness :
    (∀ (view : View) (s1 : Store) (k1 : String) (v1 : Value),
       (∃ e, View.setOp resolve0 view s1 k1 v1 = .error e) ∨
       View.setOp resolve0 view s1 k1 v1 = .ok (Store.insert s1 k1 v1)) ∧
    (∀ (view : View) (s1 : Store) (k1 : String),
       (∃ e, View.delOp resolve0 view s1 k1 = .error e) ∨
       View.delOp resolve0 view s1 k1 = .ok (Store.erase s1 k1)) ∧
    guardedRequire resolve0 "m" { blacklist := ["b"] } (.set "k" 5) 9 ⟨[], .base⟩ =
      (.ok 9, ⟨Store.insert (Store.insert [] "k" 5) "m" 9, .base⟩) ∧
    Store.lookup ((guardedRequire resolve0 "m" { blacklist := ["b"] }
      (.set "k" 5) 9 ⟨[], .base⟩).2).store "k" = some 5 :=
  permitted_mutations_hit_underlying_cache resolve0 "m" "m" "k"
    { blacklist := ["b"] } ["b"] [] 5 9 [] (by decide) (by decide) (by decide)
    (by decide) (by decide) (by decide) (by decide) (by decide) (by decide)

/-- With no restriction configured (empty resolved blacklist, empty resolved
whitelist, bare off), the ensurer permits every key. -/
theorem getEnsurer_no_restriction (resolve : Resolver) (mn k : String) :
    getEnsurer resolve [] [] false mn k = .ok () := rfl

/-- Relates a view that contains one extra no-restriction proxy layer (the one
a guarded invocation without options installs) to the same view without that
layer; the layer may be buried under further proxy layers pushed by nested
invocations. -/
inductive ViewExt (mn : String) : View → View → Prop
  | here (v : View) : ViewExt mn (.proxy [] [] false mn v) v
  | above (bl wl : List String) (bare : Bool) (nm : String) {a b : View} :
      ViewExt mn a b → ViewExt mn (.proxy bl wl bare nm a) (.proxy bl wl bare nm b)

/-- A no-restriction layer is invisible to reads. -/
theorem ViewExt.getOp_eq {mn : String} {a b : View} (h : ViewExt mn a b)
    (resolve : Resolver) (s : Store) (k : String) :
    View.getOp resolve a s k = View.getOp resolve b s k := by
  induction h with
  | here v => simp [View.getOp, getEnsurer_no_restriction]
  | above bl wl bare nm h ih =>
    simp only [View.getOp]
    cases hE : getEnsurer resolve bl wl bare nm k with
    | error e => rfl
    | ok u => exact ih

/-- A no-restriction layer is invisible to writes. -/
theorem ViewExt.setOp_eq {mn : String} {a b : View} (h : ViewExt mn a b)
    (resolve : Resolver) (s : Store) (k : String) (v : Value) :
    View.setOp resolve a s k v = View.setOp resolve b s k v := by
  induction h with
  | here v => simp [View.setOp, getEnsurer_no_restriction]
  | above bl wl bare nm h ih =>
    simp only [View.setOp]
    cases hE : getEnsurer resolve bl wl bare nm k with
    | error e => rfl
    | ok u => exact ih

/-- A no-restriction layer is invisible to presence tests. -/
theorem ViewExt.hasOp_eq {mn : String} {a b : View} (h : ViewExt mn a b)
    (resolve : Resolver) (s : Store) (k : String) :
    View.hasOp resolve a s k = View.hasOp resolve b s k := by
  induction h with
  | here v => simp [View.hasOp, getEnsurer_no_restriction]
  | above bl wl bare nm h ih =>
    simp only [View.hasOp]
    cases hE : getEnsurer resolve bl wl bare nm k with
    | error e => rfl
    | ok u => exact ih

/-- A no-restriction layer is invisible to deletes. -/
theorem ViewExt.delOp_eq {mn : String} {a b : View} (h : ViewExt mn a b)
    (resolve : Resolver) (s : Store) (k : String) :
    View.delOp resolve a s k = View.delOp resolve b s k := by
  induction h with
  | here v => simp [View.delOp, getEnsurer_no_restriction]
  | above bl wl bare nm h ih =>
    simp only [View.delOp]
    cases hE : getEnsurer resolve bl wl bare nm k with
    | error e => rfl
    | ok u => exact ih

/-- Whether a module body never attempts to lock the installed cache. -/
def Act.noLock : Act → Bool
  | .lock => false
  | .seq a b => a.noLock && b.noLock
  | .req _ body _ => body.noLock
  | .wire _ _ body _ => body.noLock
  | _ => true

/-- Running a lock-free module body cannot observe a no-restriction proxy
layer: the outcome and the evolution of the underlying store are identical
with and without the layer. -/
theorem runAct_ext (resolve : Resolver) (mn : String) (a : Act) :
    ∀ (s : Store) (v1 v2 : View), a.noLock = true → ViewExt mn v1 v2 →
      (runAct resolve a ⟨s, v1⟩).1 = (runAct resolve a ⟨s, v2⟩).1 ∧
      ((runAct resolve a ⟨s, v1⟩).2).store = ((runAct resolve a ⟨s, v2⟩).2).store := by
  induction a with
  | skip =>
    intro s v1 v2 _ _
    exact ⟨rfl, rfl⟩
  | fail msg =>
    intro s v1 v2 _ _
    exact ⟨rfl, rfl⟩
  | lock =>
    intro s v1 v2 hl _
    exact absurd hl (by simp [Act.noLock])
  | get k =>
    intro s v1 v2 _ h
    have hg := h.getOp_eq resolve s k
    simp only [runAct, hg]
    cases hE : View.getOp resolve v2 s k with
    | error e => simp [hE]
    | ok u => simp [hE]
  | set k v =>
    intro s v1 v2 _ h
    have hg := h.setOp_eq resolve s k v
    simp only [runAct, hg]
    cases hE : View.setOp resolve v2 s k v with
    | error e => simp [hE]
    | ok s1 => simp [hE]
  | has k =>
    intro s v1 v2 _ h
    have hg := h.hasOp_eq resolve s k
    simp only [runAct, hg]
    cases hE : View.hasOp resolve v2 s k with
    | error e => simp [hE]
    | ok u => simp [hE]
  | del k =>
    intro s v1 v2 _ h
    have hg := h.delOp_eq resolve s k
    simp only [runAct, hg]
    cases hE : View.delOp resolve v2 s k with
    | error e => simp [hE]
    | ok s1 => simp [hE]
  | seq a b iha ihb =>
    intro s v1 v2 hl h
    have hla : a.noLock = true := by
      simp [Act.noLock, Bool.and_eq_true] at hl
      exact hl.1
    have hlb : b.noLock = true := by
      simp [Act.noLock, Bool.and_eq_true] at hl
      exact hl.2
    obtain ⟨hr, hs⟩ := iha s v1 v2 hla h
    simp only [runAct]
    cases hA : runAct resolve a ⟨s, v1⟩ with
    | mk r1 u1 =>
    cases hB : runAct resolve a ⟨s, v2⟩ with
    | mk r2 u2 =>
      rw [hA, hB] at hr hs
      have hi1 : u1.installed = v1 := by
        have h1 := runAct_installed resolve a ⟨s, v1⟩
        rw [hA] at h1
        exact h1
      have hi2 : u2.installed = v2 := by
        have h2 := runAct_installed resolve a ⟨s, v2⟩
        rw [hB] at h2
        exact h2
      obtain ⟨st1, iv1⟩ := u1
      obtain ⟨st2, iv2⟩ := u2
      simp only at hr hs hi1 hi2
      subst hr
      subst hs
      subst hi1
      subst hi2
      cases r1 with
      | error e => exact ⟨rfl, rfl⟩
      | ok u => exact ihb st1 iv1 iv2 hlb h
  | req n body exports ih =>
    intro s v1 v2 hl h
    have hlb : body.noLock = true := by simpa [Act.noLock] using hl
    simp only [runAct]
    cases hres : resolve n with
    | none => exact ⟨rfl, rfl⟩
    | some rn =>
      have hg := h.getOp_eq resolve s rn
      simp only [hg]
      cases hE : View.getOp resolve v2 s rn with
      | error e => simp [hE]
      | ok hit =>
        cases hit with
        | some v => simp [hE]
        | none =>
          simp only [hE]
          obtain ⟨hr, hs⟩ := ih s v1 v2 hlb h
          cases hA : runAct resolve body ⟨s, v1⟩ with
          | mk r1 u1 =>
          cases hB : runAct resolve body ⟨s, v2⟩ with
          | mk r2 u2 =>
            rw [hA, hB] at hr hs
            have hi1 : u1.installed = v1 := by
              have h1 := runAct_installed resolve body ⟨s, v1⟩
              rw [hA] at h1
              exact h1
            have hi2 : u2.installed = v2 := by
              have h2 := runAct_installed resolve body ⟨s, v2⟩
              rw [hB] at h2
              exact h2
            obtain ⟨st1, iv1⟩ := u1
            obtain ⟨st2, iv2⟩ := u2
            simp only at hr hs hi1 hi2
            subst hr
            subst hs
            subst hi1
            subst hi2
            cases r1 with
            | error e => exact ⟨rfl, rfl⟩
            | ok u =>
              have hst := h.setOp_eq resolve st1 rn exports
              simp only [hst]
              cases hS : View.setOp resolve iv2 st1 rn exports with
              | error e => simp [hS]
              | ok s1 => simp [hS]
  | wire n opts body exports ih =>
    intro s v1 v2 hl h
    have hlb : body.noLock = true := by simpa [Act.noLock] using hl
    simp only [runAct]
    by_cases hc1 : (!opts.blacklist.isEmpty && !opts.whitelist.isEmpty) = true
    · simp [hc1]
    · have hc1f : (!opts.blacklist.isEmpty && !opts.whitelist.isEmpty) = false := by
        revert hc1
        cases !opts.blacklist.isEmpty && !opts.whitelist.isEmpty <;> simp
      simp only [hc1f, Bool.false_eq_true, if_false]
      by_cases hc2 : (opts.bare && (!opts.blacklist.isEmpty || !opts.whitelist.isEmpty)) = true
      · simp [hc2]
      · have hc2f :
            (opts.bare && (!opts.blacklist.isEmpty || !opts.whitelist.isEmpty)) = false := by
          revert hc2
          cases opts.bare && (!opts.blacklist.isEmpty || !opts.whitelist.isEmpty) <;> simp
        simp only [hc2f, Bool.false_eq_true, if_false]
        cases hrb : resolveList resolve opts.blacklist with
        | error e => simp [hrb]
        | ok blackSet =>
          simp only [hrb]
          cases hrw : resolveList resolve opts.whitelist with
          | error e => simp [hrw]
          | ok whiteSet =>
            simp only [hrw]
            have hAb : ViewExt mn (.proxy blackSet whiteSet opts.bare n v1)
                (.proxy blackSet whiteSet opts.bare n v2) :=
              ViewExt.above blackSet whiteSet opts.bare n h
            cases hres : resolve n with
            | none => simp [hres]
            | some rn =>
              simp only [hres]
              have hg := hAb.getOp_eq resolve s rn
              simp only [hg]
              cases hE : View.getOp resolve (.proxy blackSet whiteSet opts.bare n v2) s rn with
              | error e => simp [hE]
              | ok hit =>
                cases hit with
                | some v => simp [hE]
                | none =>
                  simp only [hE]
                  obtain ⟨hr, hs⟩ :=
                    ih s (.proxy blackSet whiteSet opts.bare n v1)
                      (.proxy blackSet whiteSet opts.bare n v2) hlb hAb
                  cases hA : runAct resolve body
                      ⟨s, .proxy blackSet whiteSet opts.bare n v1⟩ with
                  | mk r1 u1 =>
                  cases hB : runAct resolve body
                      ⟨s, .proxy blackSet whiteSet opts.bare n v2⟩ with
                  | mk r2 u2 =>
                    rw [hA, hB] at hr hs
                    have hi1 : u1.installed = .proxy blackSet whiteSet opts.bare n v1 := by
                      have h1 := runAct_installed resolve body
                        ⟨s, .proxy blackSet whiteSet opts.bare n v1⟩
                      rw [hA] at h1
                      exact h1
                    have hi2 : u2.installed = .proxy blackSet whiteSet opts.bare n v2 := by
                      have h2 := runAct_installed resolve body
                        ⟨s, .proxy blackSet whiteSet opts.bare n v2⟩
                      rw [hB] at h2
                      exact h2
                    obtain ⟨st1, iv1⟩ := u1
                    obtain ⟨st2, iv2⟩ := u2
                    simp only at hr hs hi1 hi2
                    subst hr
                    subst hs
                    subst hi1
                    subst hi2
                    cases r1 with
                    | error e => exact ⟨rfl, rfl⟩
                    | ok u =>
                      have hst := hAb.setOp_eq resolve st1 rn exports
                      simp only [hst]
                      cases hS : View.setOp resolve
                          (.proxy blackSet whiteSet opts.bare n v2) st1 rn exports with
                      | error e => simp [hS]
                      | ok s1 => simp [hS]

/-- Shared helper: with no restriction configured, a guarded load of a
lock-free module body is the same function of the world as the ordinary
unguarded host load. -/
theorem guardedRequire_no_restriction_eq (resolve : Resolver) (mn : String)
    (body : Act) (exports : Value) (s : Store) (v : View) (hl : body.noLock = true) :
    guardedRequire resolve mn { blacklist := [], whitelist := [], bare := false }
      body exports ⟨s, v⟩ = hostRequire resolve mn body exports ⟨s, v⟩ := by
  have hhere : ViewExt mn (.proxy [] [] false mn v) v := ViewExt.here v
  simp only [guardedRequire, List.isEmpty_nil, Bool.not_true, Bool.false_and,
    Bool.and_false, Bool.false_eq_true, if_false, resolveList]
  simp only [hostRequire]
  cases hres : resolve mn with
  | none => simp [hres]
  | some rn =>
    simp only [hres]
    have hg := hhere.getOp_eq resolve s rn
    simp only [hg]
    cases hE : View.getOp resolve v s rn with
    | error e => simp [hE]
    | ok hit =>
      cases hit with
      | some val => simp [hE]
      | none =>
        simp only [hE]
        obtain ⟨hr, hs⟩ := runAct_ext resolve mn body s (.proxy [] [] false mn v) v hl hhere
        cases hA : runAct resolve body ⟨s, .proxy [] [] false mn v⟩ with
        | mk r1 u1 =>
        cases hB : runAct resolve body ⟨s, v⟩ with
        | mk r2 u2 =>
          rw [hA, hB] at hr hs
          have hi1 : u1.installed = .proxy [] [] false mn v := by
            have h1 := runAct_installed resolve body ⟨s, .proxy [] [] false mn v⟩
            rw [hA] at h1
            exact h1
          have hi2 : u2.installed = v := by
            have h2 := runAct_installed resolve body ⟨s, v⟩
            rw [hB] at h2
            exact h2
          obtain ⟨st1, iv1⟩ := u1
          obtain ⟨st2, iv2⟩ := u2
          simp only at hr hs hi1 hi2
          subst hr
          subst hs
          subst hi1
          subst hi2
          cases r1 with
          | error e => simp
          | ok u =>
            have hst := hhere.setOp_eq resolve st1 rn exports
            simp only [hst]
            cases hS : View.setOp resolve iv2 st1 rn exports with
            | error e => simp [hS]
            | ok s1 => simp [hS]

/-- Counterexample to claim C8 as stated: with no restriction configured, a
guarded load is not identical to an ordinary unguarded load and an intercepted
operation can still fail with an error of the access-violation class — a
module that attempts to lock the cache fails under the guard while the plain
host load of the same module succeeds. -/
theorem no_restriction_lock_still_fails :
    guardedRequire resolve0 "m" {} .lock 7 w0 = (.error (.lockError "m"), w0) ∧
    hostRequire resolve0 "m" .lock 7 w0 = (.ok 7, ⟨[("m", 7)], .base⟩) ∧
    (Err.lockError "m").isAccessViolation = true :=
  ⟨by decide, by decide, rfl⟩

/-- Claim C8 (amended): with no restriction configured (the defaults), the
policy permits every key, so each keyed intercepted operation — read, write,
presence test, delete — never fails and delegates to the original cache; and
for every module whose code never attempts to lock the cache, the guarded
invocation coincides exactly with the ordinary unguarded host load (same
result, same final state). Lock attempts are the one exception: they fail
even under the unrestricted configuration. -/
theorem no_restriction_behaves_as_plain_load (resolve : Resolver) (mn : String)
    (body : Act) (exports : Value) (w : World) (hl : body.noLock = true) :
    (∀ k, getEnsurer resolve [] [] false mn k = .ok ()) ∧
    (∀ (s1 : Store) (k : String),
      View.getOp resolve (.proxy [] [] false mn .base) s1 k = .ok (Store.lookup s1 k)) ∧
    (∀ (s1 : Store) (k : String) (v1 : Value),
      View.setOp resolve (.proxy [] [] false mn .base) s1 k v1 =
        .ok (Store.insert s1 k v1)) ∧
    (∀ (s1 : Store) (k : String),
      View.hasOp resolve (.proxy [] [] false mn .base) s1 k =
        .ok (Store.containsKey s1 k)) ∧
    (∀ (s1 : Store) (k : String),
      View.delOp resolve (.proxy [] [] false mn .base) s1 k = .ok (Store.erase s1 k)) ∧
    guardedRequire resolve mn { blacklist := [], whitelist := [], bare := false }
      body exports w = hostRequire resolve mn body exports w := by
  obtain ⟨s, v⟩ := w
  exact ⟨fun k => rfl, fun s1 k => rfl, fun s1 k v1 => rfl, fun s1 k => rfl,
    fun s1 k => rfl, guardedRequire_no_restriction_eq resolve mn body exports s v hl⟩

/-- Witness for the amended claim C8 at a concrete lock-free module. -/
theorem no_restriction_behaves_as_plain_load_witness :
    getEnsurer resolve0 [] [] false "m" "fs" = .ok () ∧
    guardedRequire resolve0 "m" { blacklist := [], whitelist := [], bare := false }
      (.set "k" 5) 9 w0 = hostRequire resolve0 "m" (.set "k" 5) 9 w0 :=
  ⟨(no_restriction_behaves_as_plain_load resolve0 "m" (.set "k" 5) 9 w0 (by decide)).1 "fs",
   (no_restriction_behaves_as_plain_load resolve0 "m" (.set "k" 5) 9 w0
     (by decide)).2.2.2.2.2⟩

end Snykwire
